import Mathlib

/-!
Verification of the next-read metadata core: the TTL metadata cache
(src/storage/cache.ts), the visibility-prioritized bounded-concurrency
scheduler (src/content/request-manager.ts), and the card lifecycle
(src/content/card-detector.ts together with the content orchestrator).
Each definition is a shallow embedding of the corresponding TypeScript
function; timestamps are epoch milliseconds as natural numbers, and the
persistent store is a key-value association list standing for
chrome.storage.local.
-/

namespace NextRead

/-! ## Data model (types used by src/storage/cache.ts)

BookInfo mirrors the extension type: a title and an optional author.
GoogleBooksData carries optional rating fields; the cache never computes
on the numeric payload, so the JS numbers are embedded as naturals. -/

structure BookInfo where
  title : String
  author : Option String
deriving DecidableEq

structure GoogleBooksData where
  averageRating : Option Nat
  ratingsCount : Option Nat
  categories : Option (List String)
deriving DecidableEq

/-- CacheEntry from the extension types: the cached record plus the epoch
timestamp written at set time (spec name: storedAt). -/
structure CacheEntry where
  data : GoogleBooksData
  timestamp : Nat
deriving DecidableEq

/-- Cache duration: 30 days in milliseconds (cache.ts line 5). -/
def CACHE_DURATION_MS : Nat := 30 * 24 * 60 * 60 * 1000

/-! ## Persistent store model

chrome.storage.local is a string-keyed map; it is embedded as an
association list where the most recent write of a key shadows older
ones. -/

abbrev Store := List (String × CacheEntry)

def storeFind (k : String) : Store → Option CacheEntry
  | [] => none
  | (k2, e) :: rest => if k2 = k then some e else storeFind k rest

def storeRemove (k : String) (st : Store) : Store :=
  st.filter (fun p => p.1 ≠ k)

def storeSet (k : String) (e : CacheEntry) (st : Store) : Store :=
  (k, e) :: storeRemove k st

/-! ## Cache key normalization (cache.ts getCacheKey) -/

/-- Embedding of the JS String.prototype.toLowerCase call: lower each
character. -/
def jsToLower (s : String) : String := ⟨s.data.map Char.toLower⟩

/-- Embedding of the JS String.prototype.trim call: strip whitespace
from both ends. -/
def jsTrim (s : String) : String :=
  ⟨((s.data.dropWhile Char.isWhitespace).reverse.dropWhile
      Char.isWhitespace).reverse⟩

/-- Model of the JS expression `x || dflt` on an optional string: an
absent string and the empty string are both falsy and yield the
default. -/
def jsOrDefault (s : Option String) (dflt : String) : String :=
  match s with
  | none => dflt
  | some t => if t = "" then dflt else t

/-- Embedding of getCacheKey (cache.ts lines 11-15): lower-case and trim
the title; lower-case and trim the author when present, with absent (or
falsy, i.e. empty after normalization) author replaced by the sentinel
"unknown"; join as "book:title:author". -/
def getCacheKey (b : BookInfo) : String :=
  let title := jsTrim (jsToLower b.title)
  let author := jsOrDefault (b.author.map (fun a => jsTrim (jsToLower a)))
    "unknown"
  "book:" ++ title ++ ":" ++ author

/-! ## Cache operations (cache.ts) -/

/-- Embedding of getCachedBookData (cache.ts lines 22-49). Returns the
looked-up record (none on miss or expiry) together with the store after
the call, since an expired entry is removed as a side effect. `now` is
the value of Date.now at the call. -/
def getCachedBookData (now : Nat) (st : Store) (b : BookInfo) :
    Option GoogleBooksData × Store :=
  let key := getCacheKey b
  match storeFind key st with
  | none => (none, st)
  | some entry =>
      if now - entry.timestamp > CACHE_DURATION_MS then
        (none, storeRemove key st)
      else
        (some entry.data, st)

/-- Embedding of setCachedBookData (cache.ts lines 56-72): upsert the
entry under the normalized key with timestamp = now. -/
def setCachedBookData (now : Nat) (st : Store) (b : BookInfo)
    (d : GoogleBooksData) : Store :=
  storeSet (getCacheKey b) ⟨d, now⟩ st

/-- Embedding of clearCache (cache.ts lines 77-84). -/
def clearCache (_st : Store) : Store := []

/-- Sample record used to instantiate cache theorems. -/
def exampleData : GoogleBooksData := ⟨some 4, some 1234, some ["Fiction"]⟩

/-- Sample query used to instantiate cache theorems. -/
def exampleBook : BookInfo := ⟨"Dune", some "Frank Herbert"⟩

/-! ## Priority scheduler (request-manager.ts)

Cards are opaque handles, embedded as naturals. A QueuedRequest pairs
its card with a task identifier standing for the execute closure. The
scheduler state carries the two FIFO queues, the visible-card set, the
activeRequests counter, the multiset of in-flight (dispatched, not yet
completed) requests implicit in the awaited promises of the source, the
multiset of scheduled processNext timer delays, and the error log. The
system is single-threaded and event-driven: each operation below is one
synchronous block of the source, and timer firing plus task completion
are separate events of the step relation. -/

def MAX_CONCURRENT : Nat := 10

def STAGGER_DELAY_MS : Nat := 50

structure QueuedRequest where
  card : Nat
  tid : Nat
deriving DecidableEq

structure SchedulerState where
  visibleQueue : List QueuedRequest
  offscreenQueue : List QueuedRequest
  visibleCards : List Nat
  activeRequests : Nat
  running : List QueuedRequest
  pendingDispatches : List Nat
  errorLog : List String
deriving DecidableEq

def initialScheduler : SchedulerState := ⟨[], [], [], 0, [], [], []⟩

/-- JS Set.add: no duplicate insertion. -/
def setAdd (c : Nat) (l : List Nat) : List Nat :=
  if l.contains c then l else l ++ [c]

/-- JS Set.delete. -/
def setDelete (c : Nat) (l : List Nat) : List Nat :=
  l.filter (fun x => x ≠ c)

/-- Dispatch of a popped request (request-manager.ts lines 118-124):
increment activeRequests and start the task, which joins the in-flight
set until its completion event. -/
def dispatchRun (r : QueuedRequest) (s : SchedulerState) : SchedulerState :=
  { s with activeRequests := s.activeRequests + 1,
           running := s.running ++ [r] }

/-- Embedding of processNext (request-manager.ts lines 107-132) up to
the suspension at the task await: stop when at capacity; otherwise pop
the head of visibleQueue, or of offscreenQueue when the former is
empty; when both are empty do nothing. -/
def processNext (s : SchedulerState) : SchedulerState :=
  if MAX_CONCURRENT ≤ s.activeRequests then s
  else
    match s.visibleQueue with
    | r :: rest => dispatchRun r { s with visibleQueue := rest }
    | [] =>
      match s.offscreenQueue with
      | r :: rest => dispatchRun r { s with offscreenQueue := rest }
      | [] => s

/-- Embedding of the loop of reprioritizeQueue (request-manager.ts
lines 74-84): push each offscreen request whose card is now visible
onto visibleQueue, collect the rest in order. -/
def migrateLoop (vis : List Nat) (vq acc : List QueuedRequest) :
    List QueuedRequest → List QueuedRequest × List QueuedRequest
  | [] => (vq, acc)
  | r :: rest =>
      if vis.contains r.card then migrateLoop vis (vq ++ [r]) acc rest
      else migrateLoop vis vq (acc ++ [r]) rest

/-- State after the queue migration of reprioritizeQueue, before the
dispatch attempt. -/
def migratedState (s : SchedulerState) : SchedulerState :=
  let p := migrateLoop s.visibleCards s.visibleQueue [] s.offscreenQueue
  { s with visibleQueue := p.1, offscreenQueue := p.2 }

/-- Embedding of reprioritizeQueue (request-manager.ts lines 73-88):
migrate, then attempt dispatch. -/
def reprioritizeQueue (s : SchedulerState) : SchedulerState :=
  processNext (migratedState s)

/-- Queue placement of enqueue (request-manager.ts lines 93-98): tail
of visibleQueue when the card is visible, else tail of
offscreenQueue. -/
def enqueueTarget (r : QueuedRequest) (s : SchedulerState) :
    SchedulerState :=
  if s.visibleCards.contains r.card then
    { s with visibleQueue := s.visibleQueue ++ [r] }
  else
    { s with offscreenQueue := s.offscreenQueue ++ [r] }

/-- Embedding of enqueue (request-manager.ts lines 93-102): place the
request, then attempt dispatch. -/
def enqueue (r : QueuedRequest) (s : SchedulerState) : SchedulerState :=
  processNext (enqueueTarget r s)

/-- IntersectionObserver callback, intersecting entry (request-manager.ts
lines 37-39): add to the visible set and reprioritize. -/
def intersectOn (c : Nat) (s : SchedulerState) : SchedulerState :=
  reprioritizeQueue { s with visibleCards := setAdd c s.visibleCards }

/-- IntersectionObserver callback, non-intersecting entry
(request-manager.ts line 41): remove from the visible set only. -/
def intersectOff (c : Nat) (s : SchedulerState) : SchedulerState :=
  { s with visibleCards := setDelete c s.visibleCards }

/-- Embedding of unobserveCard (request-manager.ts lines 58-61). -/
def unobserveCard (c : Nat) (s : SchedulerState) : SchedulerState :=
  { s with visibleCards := setDelete c s.visibleCards }

/-- Completion event of a dispatched task (request-manager.ts lines
123-131): on failure the error is caught and logged; in both cases the
finally block frees the slot and schedules another dispatch attempt
after STAGGER_DELAY_MS. -/
def finishRequest (failed : Bool) (r : QueuedRequest)
    (s : SchedulerState) : SchedulerState :=
  let s1 :=
    if failed then { s with errorLog := s.errorLog ++ ["Request failed:"] }
    else s
  { s1 with running := s1.running.erase r,
            activeRequests := s1.activeRequests - 1,
            pendingDispatches := s1.pendingDispatches ++ [STAGGER_DELAY_MS] }

/-- Embedding of startBatch (request-manager.ts lines 138-147):
schedule MAX_CONCURRENT staggered dispatch attempts at delays
i * STAGGER_DELAY_MS. -/
def startBatch (s : SchedulerState) : SchedulerState :=
  { s with pendingDispatches := s.pendingDispatches
      ++ (List.range MAX_CONCURRENT).map (fun i => i * STAGGER_DELAY_MS) }

/-- Embedding of clearQueues (request-manager.ts lines 152-156). -/
def clearQueues (s : SchedulerState) : SchedulerState :=
  { s with visibleQueue := [], offscreenQueue := [] }

/-- Event-level step relation of the scheduler: each constructor is one
synchronous event of the single-threaded runtime. A scheduled timer
fires at most once (its delay is consumed) and a completion event needs
an in-flight request. -/
inductive SchedStep : SchedulerState → SchedulerState → Prop
  | enqueueEv (r : QueuedRequest) (s : SchedulerState) :
      SchedStep s (enqueue r s)
  | intersectOnEv (c : Nat) (s : SchedulerState) :
      SchedStep s (intersectOn c s)
  | intersectOffEv (c : Nat) (s : SchedulerState) :
      SchedStep s (intersectOff c s)
  | unobserveEv (c : Nat) (s : SchedulerState) :
      SchedStep s (unobserveCard c s)
  | startBatchEv (s : SchedulerState) : SchedStep s (startBatch s)
  | fireEv (d : Nat) (s : SchedulerState) :
      d ∈ s.pendingDispatches →
      SchedStep s
        (processNext { s with pendingDispatches := s.pendingDispatches.erase d })
  | completeEv (failed : Bool) (r : QueuedRequest) (s : SchedulerState) :
      r ∈ s.running → SchedStep s (finishRequest failed r s)
  | clearEv (s : SchedulerState) : SchedStep s (clearQueues s)

/-- Reachability from the module initial state: empty queues, empty
visible set, zero active requests. -/
def SchedReachable (s : SchedulerState) : Prop :=
  Relation.ReflTransGen SchedStep initialScheduler s

/-! ## Card lifecycle (card-detector.ts and the content orchestrator)

The two boolean attributes written on a card element are its flags; the
card processing state of the spec is derived from them, with the
processed attribute dominating. -/

structure CardFlags where
  processed : Bool
  loading : Bool
deriving DecidableEq

/-- Embedding of markCardAsProcessed (card-detector.ts lines 151-153). -/
def markCardAsProcessed (f : CardFlags) : CardFlags :=
  { f with processed := true }

/-- Embedding of markCardAsLoading (card-detector.ts lines 159-161). -/
def markCardAsLoading (f : CardFlags) : CardFlags :=
  { f with loading := true }

/-- Embedding of unmarkCardAsLoading (card-detector.ts lines 167-169). -/
def unmarkCardAsLoading (f : CardFlags) : CardFlags :=
  { f with loading := false }

/-- Embedding of isCardLoading (card-detector.ts lines 176-178). -/
def isCardLoading (f : CardFlags) : Bool := f.loading

/-- A card on the page: its handle, its attribute flags, and whether
its markup matches one of the two recognized book-card patterns. -/
structure PageCard where
  id : Nat
  flags : CardFlags
  recognizable : Bool
deriving DecidableEq

/-- Embedding of findUnprocessedCards (card-detector.ts lines 11-55):
return every card whose markup matches a book pattern and that does not
carry the processed attribute. The loading attribute is not consulted. -/
def findUnprocessedCards (page : List PageCard) : List Nat :=
  (page.filter (fun c => !c.flags.processed && c.recognizable)).map
    (fun c => c.id)

/-- Outcome of the awaited fetch inside the enqueued task: the fetch
either throws or yields an optional record. -/
inductive FetchOutcome
  | throws
  | fetched (d : Option GoogleBooksData)
deriving DecidableEq

/-- Card-affecting primitive operations performed by the task body of
processCard (content orchestrator, the execute closure). -/
inductive CardAction
  | cacheSet
  | removeMeta
  | unmarkLoading
  | insertMeta
  | unobserve
  | markProcessed
deriving DecidableEq

/-- Embedding of the execute closure of processCard (content
orchestrator lines 103-141): on a throw, the catch block removes the
loading indicator and unmarks loading; on success the result is cached
when present, the indicator removed, loading unmarked, and the record
rendered when present; the finally block always unobserves the card and
marks it processed. -/
def executeActions : FetchOutcome → List CardAction
  | .throws =>
      [.removeMeta, .unmarkLoading, .unobserve, .markProcessed]
  | .fetched none =>
      [.removeMeta, .unmarkLoading, .unobserve, .markProcessed]
  | .fetched (some _) =>
      [.cacheSet, .removeMeta, .unmarkLoading, .insertMeta, .unobserve,
        .markProcessed]

/-- Effect of each card action on the card flags; actions not touching
the two attributes leave them unchanged. -/
def applyAction (f : CardFlags) : CardAction → CardFlags
  | .unmarkLoading => unmarkCardAsLoading f
  | .markProcessed => markCardAsProcessed f
  | _ => f

/-- Derived card processing state of the spec data model. -/
inductive CState
  | unprocessed
  | loading
  | processed
deriving DecidableEq

def cardState (f : CardFlags) : CState :=
  if f.processed then .processed
  else if f.loading then .loading
  else .unprocessed

def CState.rank : CState → Nat
  | .unprocessed => 0
  | .loading => 1
  | .processed => 2

/-- Atomic synchronous segments of the orchestrator that touch the
flags of one card, each a block between suspension points of the
source: the malformed-markup early return, the scan-start block
(markCardAsLoading and observe before the cache await), the cache-hit
block, the cache-miss enqueue (no flag change), and the completion of
the enqueued task. -/
inductive CardSeg
  | scanMalformed
  | scanStart
  | cacheHit
  | enqueueMiss
  | taskFinish (o : FetchOutcome)

def applySeg (f : CardFlags) : CardSeg → CardFlags
  | .scanMalformed => markCardAsProcessed f
  | .scanStart => markCardAsLoading f
  | .cacheHit => markCardAsProcessed (unmarkCardAsLoading f)
  | .enqueueMiss => f
  | .taskFinish o => (executeActions o).foldl applyAction f

/-- States observed at the boundaries of the atomic segments of a run,
starting from the given flags. -/
def observedStates (f : CardFlags) : List CardSeg → List CState
  | [] => [cardState f]
  | seg :: rest => cardState f :: observedStates (applySeg f seg) rest

/-- Decision taken by processCard (content orchestrator lines 56-143)
for one card: unrecognizable markup is marked processed immediately and
enqueues nothing; a cache hit renders and finishes without the
scheduler; a cache miss enqueues a task for the card. -/
inductive ProcessOutcome
  | skippedMalformed
  | renderedFromCache
  | enqueuedTask (r : QueuedRequest)
deriving DecidableEq

def processCardDecision (recognizable cacheHit : Bool) (c tid : Nat) :
    ProcessOutcome :=
  if !recognizable then .skippedMalformed
  else if cacheHit then .renderedFromCache
  else .enqueuedTask ⟨c, tid⟩

/-- Number of enqueued-or-running tasks of a card in a scheduler
state. -/
def inFlightFor (c : Nat) (s : SchedulerState) : Nat :=
  ((s.visibleQueue ++ s.offscreenQueue ++ s.running).filter
    (fun r => r.card = c)).length

/-! ## Concrete scenario states used by the counterexamples -/

/-- Scheduler state after a scan enqueues a task for card 7 (not
visible, cache miss) and a mutation re-scan, firing while the card is
still loading and its first task in flight, enqueues a second task for
the same card. -/
def dupScenarioState : SchedulerState :=
  enqueue ⟨7, 2⟩ (enqueue ⟨7, 1⟩ initialScheduler)

/-- Scheduler saturated by ten running requests for other cards. -/
def saturatedScheduler : SchedulerState :=
  (List.range 10).foldl
    (fun s i => enqueue ⟨100 + i, 100 + i⟩ s) initialScheduler

/-- Scheduler state where card 7 was enqueued while visible (queued
behind a full pipeline), scrolled out of view, and then re-enqueued by
a mutation re-scan while not visible. -/
def bothQueuesState : SchedulerState :=
  enqueue ⟨7, 2⟩
    (intersectOff 7 (enqueue ⟨7, 1⟩ (intersectOn 7 saturatedScheduler)))

/-- Sample state with both queues non-empty and free capacity. -/
def sampleBothQueues : SchedulerState :=
  { initialScheduler with
      visibleQueue := [⟨1, 1⟩], offscreenQueue := [⟨2, 2⟩] }

/-! ## Theorems -/

theorem storeFind_storeRemove (k : String) (st : Store) :
    storeFind k (storeRemove k st) = none := by
  induction st with
  | nil => rfl
  | cons p rest ih =>
    by_cases h : p.1 = k
    · simpa [storeRemove, List.filter_cons, h] using ih
    · simpa [storeRemove, List.filter_cons, h, storeFind] using ih

/-- C5: cache round-trip with TTL. Setting a record at time tset and
reading it back at time tget returns the record when at most 30 days
elapsed, and returns absent and deletes the stale entry from the store
when more than 30 days elapsed. -/
theorem cache_roundtrip_ttl (st : Store) (b : BookInfo)
    (d : GoogleBooksData) (tset tget : Nat) (_hle : tset ≤ tget) :
    (tget - tset ≤ CACHE_DURATION_MS →
      getCachedBookData tget (setCachedBookData tset st b d) b
        = (some d, setCachedBookData tset st b d)) ∧
    (CACHE_DURATION_MS < tget - tset →
      (getCachedBookData tget (setCachedBookData tset st b d) b).1 = none ∧
      storeFind (getCacheKey b)
        (getCachedBookData tget (setCachedBookData tset st b d) b).2
          = none) := by
  constructor
  · intro hfresh
    simp [getCachedBookData, setCachedBookData, storeSet, storeFind,
      Nat.not_lt.mpr hfresh]
  · intro hstale
    simp [getCachedBookData, setCachedBookData, storeSet, storeFind,
      hstale, storeFind_storeRemove]

/-- Witness for C5 at a concrete store, query, record and times. -/
theorem cache_roundtrip_ttl_witness :
    getCachedBookData 10 (setCachedBookData 0 [] exampleBook exampleData)
        exampleBook
      = (some exampleData, setCachedBookData 0 [] exampleBook exampleData) ∧
    (getCachedBookData (CACHE_DURATION_MS + 1)
        (setCachedBookData 0 [] exampleBook exampleData) exampleBook).1
      = none := by
  constructor
  · exact (cache_roundtrip_ttl [] exampleBook exampleData 0 10
      (by decide)).1 (by decide)
  · exact ((cache_roundtrip_ttl [] exampleBook exampleData 0
      (CACHE_DURATION_MS + 1) (Nat.zero_le _)).2
      (by simp [CACHE_DURATION_MS])).1

/-- C9: the cache key lower-cases and trims both fields, maps an absent
author to the sentinel token "unknown", and joins the parts into a
stable string; hence a get with absent author after a set with author
"Frank Herbert" misses (the keys differ by author normalization). -/
theorem cacheKey_author_normalization :
    (∀ t : String, getCacheKey ⟨t, none⟩
      = "book:" ++ jsTrim (jsToLower t) ++ ":" ++ "unknown") ∧
    getCacheKey ⟨"Dune", none⟩ ≠ getCacheKey ⟨"Dune", some "Frank Herbert"⟩ ∧
    (getCachedBookData 10
        (setCachedBookData 0 [] ⟨"Dune", some "Frank Herbert"⟩ exampleData)
        ⟨"Dune", none⟩).1 = none := by
  refine ⟨fun t => rfl, by decide, by decide⟩

/-- C10: sentinel aliasing. Distinct queries with the same title, one
with absent author and one whose author normalizes to "unknown" or to
the empty string, derive the same cache key, so a get with one returns
the record stored with the other. -/
theorem cacheKey_sentinel_aliasing :
    ((⟨"Dune", none⟩ : BookInfo) ≠ ⟨"Dune", some " Unknown "⟩) ∧
    getCacheKey ⟨"Dune", none⟩ = getCacheKey ⟨"Dune", some " Unknown "⟩ ∧
    ((⟨"Dune", none⟩ : BookInfo) ≠ ⟨"Dune", some "   "⟩) ∧
    getCacheKey ⟨"Dune", none⟩ = getCacheKey ⟨"Dune", some "   "⟩ ∧
    (getCachedBookData 0
        (setCachedBookData 0 [] ⟨"Dune", some " Unknown "⟩ exampleData)
        ⟨"Dune", none⟩).1 = some exampleData := by
  exact ⟨by decide, by decide, by decide, by decide, by decide⟩

/-! ### Scheduler helper lemmas -/

theorem enqueueTarget_activeRequests (r : QueuedRequest)
    (s : SchedulerState) :
    (enqueueTarget r s).activeRequests = s.activeRequests := by
  unfold enqueueTarget; split <;> rfl

theorem processNext_activeRequests (s : SchedulerState) :
    (processNext s).activeRequests = s.activeRequests ∨
      ((processNext s).activeRequests = s.activeRequests + 1 ∧
        s.activeRequests < MAX_CONCURRENT) := by
  unfold processNext
  by_cases h : MAX_CONCURRENT ≤ s.activeRequests
  · left; simp [h]
  · cases hv : s.visibleQueue with
    | cons r rest =>
        right
        exact ⟨by simp [h, hv, dispatchRun], Nat.lt_of_not_le h⟩
    | nil =>
        cases ho : s.offscreenQueue with
        | cons r rest =>
            right
            exact ⟨by simp [h, hv, ho, dispatchRun], Nat.lt_of_not_le h⟩
        | nil => left; simp [h, hv, ho]

theorem processNext_active_le {s : SchedulerState}
    (h : s.activeRequests ≤ MAX_CONCURRENT) :
    (processNext s).activeRequests ≤ MAX_CONCURRENT := by
  rcases processNext_activeRequests s with h1 | ⟨h1, h2⟩ <;> omega

theorem schedStep_active_le {s t : SchedulerState} (hst : SchedStep s t)
    (h : s.activeRequests ≤ MAX_CONCURRENT) :
    t.activeRequests ≤ MAX_CONCURRENT := by
  cases hst with
  | enqueueEv r s =>
      exact processNext_active_le
        (by rw [enqueueTarget_activeRequests]; exact h)
  | intersectOnEv c s => exact processNext_active_le h
  | intersectOffEv c s => exact h
  | unobserveEv c s => exact h
  | startBatchEv s => exact h
  | fireEv d s hd => exact processNext_active_le h
  | completeEv failed r s hr =>
      cases failed <;> simp [finishRequest] <;> omega
  | clearEv s => exact h

theorem schedReachable_active_le {s : SchedulerState}
    (h : SchedReachable s) : s.activeRequests ≤ MAX_CONCURRENT := by
  induction h with
  | refl => decide
  | tail _ hstep ih => exact schedStep_active_le hstep ih

theorem migrateLoop_spec (vis : List Nat) :
    ∀ (bq vq acc : List QueuedRequest),
      migrateLoop vis vq acc bq
        = (vq ++ bq.filter (fun r => vis.contains r.card),
           acc ++ bq.filter (fun r => !(vis.contains r.card))) := by
  intro bq
  induction bq with
  | nil => intro vq acc; simp [migrateLoop]
  | cons r rest ih =>
      intro vq acc
      by_cases h : r.card ∈ vis
      · simp [migrateLoop, List.filter_cons, h, ih, List.append_assoc]
      · simp [migrateLoop, List.filter_cons, h, ih]

/-! ### Scheduler claim theorems -/

/-- C1: in every reachable scheduler state the number of in-flight
requests stays within MAX_CONCURRENT = 10 (the reachable states include
every interleaving of enqueues, visibility events, the up-to-ten
staggered attempts of startBatch, timer firings and completions), and a
dispatch attempt at capacity stops without popping or dispatching
anything. -/
theorem activeRequests_bounded :
    (∀ s : SchedulerState, SchedReachable s →
      s.activeRequests ≤ MAX_CONCURRENT) ∧
    (∀ s : SchedulerState, MAX_CONCURRENT ≤ s.activeRequests →
      processNext s = s) := by
  constructor
  · exact fun _ h => schedReachable_active_le h
  · intro s h; unfold processNext; simp [h]

/-- Witness for C1 at the initial state and at a saturated state with
both queues non-empty. -/
theorem activeRequests_bounded_witness :
    initialScheduler.activeRequests ≤ MAX_CONCURRENT ∧
    processNext { sampleBothQueues with activeRequests := 10 }
      = { sampleBothQueues with activeRequests := 10 } := by
  exact ⟨activeRequests_bounded.1 initialScheduler Relation.ReflTransGen.refl,
    activeRequests_bounded.2 _ (by decide)⟩

/-- C2: with free capacity, dispatch pops the head of the visible
queue whenever it is non-empty (regardless of the background queue);
only when the visible queue is empty does it pop the head of the
background queue; when both are empty the attempt does nothing. -/
theorem dispatch_prefers_visible (s : SchedulerState)
    (hcap : s.activeRequests < MAX_CONCURRENT) :
    (∀ r rest, s.visibleQueue = r :: rest →
      (processNext s).running = s.running ++ [r] ∧
      (processNext s).visibleQueue = rest ∧
      (processNext s).offscreenQueue = s.offscreenQueue ∧
      (processNext s).activeRequests = s.activeRequests + 1) ∧
    (s.visibleQueue = [] → ∀ r rest, s.offscreenQueue = r :: rest →
      (processNext s).running = s.running ++ [r] ∧
      (processNext s).offscreenQueue = rest ∧
      (processNext s).activeRequests = s.activeRequests + 1) ∧
    (s.visibleQueue = [] → s.offscreenQueue = [] → processNext s = s) := by
  have hn : ¬ MAX_CONCURRENT ≤ s.activeRequests := Nat.not_le.mpr hcap
  refine ⟨?_, ?_, ?_⟩
  · intro r rest hv
    unfold processNext
    simp [hn, hv, dispatchRun]
  · intro hv r rest ho
    unfold processNext
    simp [hn, hv, ho, dispatchRun]
  · intro hv ho
    unfold processNext
    simp [hn, hv, ho]

/-- Witness for C2 at a state with both queues non-empty: the visible
head is dispatched and the background queue is untouched. -/
theorem dispatch_prefers_visible_witness :
    (processNext sampleBothQueues).running = [⟨1, 1⟩] ∧
    (processNext sampleBothQueues).visibleQueue = [] ∧
    (processNext sampleBothQueues).offscreenQueue = [⟨2, 2⟩] := by
  have h := (dispatch_prefers_visible sampleBothQueues (by decide)).1
    ⟨1, 1⟩ [] rfl
  exact ⟨by simpa using h.1, h.2.1, h.2.2.1⟩

/-- C4: the reprioritize migration appends the now-visible background
items, in their original relative order, to the tail of the visible
queue, keeps the others in the background queue in their original
order, neither drops nor duplicates any item, and is followed by a
dispatch attempt. -/
theorem reprioritize_order_preserving :
    (∀ s : SchedulerState, migratedState s = { s with
        visibleQueue := s.visibleQueue
          ++ s.offscreenQueue.filter
              (fun r => s.visibleCards.contains r.card),
        offscreenQueue := s.offscreenQueue.filter
          (fun r => !(s.visibleCards.contains r.card)) }) ∧
    (∀ (vis : List Nat) (vq bq : List QueuedRequest),
      ((migrateLoop vis vq [] bq).1 ++ (migrateLoop vis vq [] bq).2).Perm
        (vq ++ bq)) ∧
    (∀ s : SchedulerState,
      reprioritizeQueue s = processNext (migratedState s)) := by
  refine ⟨?_, ?_, fun s => rfl⟩
  · intro s
    unfold migratedState
    rw [migrateLoop_spec]
    simp
  · intro vis vq bq
    rw [migrateLoop_spec]
    simp only [List.nil_append, List.append_assoc]
    exact (List.filter_append_perm _ bq).append_left vq

/-- C7: a task whose execution throws is handled by the scheduler like
a success: the failure is caught and logged, the slot is freed and a
staggered dispatch attempt is scheduled, the non-log state fields being
the same function of the prior state for both outcomes; and the task
body itself unobserves the card and marks it processed exactly once,
ending with the processed attribute set and loading cleared, for a
throw just as for either successful outcome. -/
theorem failure_handled_like_success :
    (∀ (failed : Bool) (r : QueuedRequest) (s : SchedulerState),
      (finishRequest failed r s).visibleQueue = s.visibleQueue ∧
      (finishRequest failed r s).offscreenQueue = s.offscreenQueue ∧
      (finishRequest failed r s).visibleCards = s.visibleCards ∧
      (finishRequest failed r s).running = s.running.erase r ∧
      (finishRequest failed r s).activeRequests = s.activeRequests - 1 ∧
      (finishRequest failed r s).pendingDispatches
        = s.pendingDispatches ++ [STAGGER_DELAY_MS]) ∧
    (∀ (r : QueuedRequest) (s : SchedulerState),
      (finishRequest true r s).errorLog
        = s.errorLog ++ ["Request failed:"]) ∧
    (∀ o : FetchOutcome,
      (executeActions o).count CardAction.unobserve = 1 ∧
      (executeActions o).count CardAction.markProcessed = 1 ∧
      ∀ f : CardFlags,
        (executeActions o).foldl applyAction f = ⟨true, false⟩) := by
  refine ⟨?_, ?_, ?_⟩
  · intro failed r s
    cases failed <;> simp [finishRequest]
  · intro r s
    simp [finishRequest]
  · intro o
    refine ⟨?_, ?_, ?_⟩
    · cases o with
      | throws => rfl
      | fetched d => cases d <;> rfl
    · cases o with
      | throws => rfl
      | fetched d => cases d <;> rfl
    · intro f
      cases o with
      | throws => rfl
      | fetched d => cases d <;> rfl

/-! ### Card lifecycle helper lemmas -/

theorem executeActions_flags (o : FetchOutcome) (f : CardFlags) :
    (executeActions o).foldl applyAction f = ⟨true, false⟩ := by
  cases o with
  | throws => rfl
  | fetched d => cases d <;> rfl

theorem cardState_rank_le_applySeg (f : CardFlags) (seg : CardSeg) :
    (cardState f).rank ≤ (cardState (applySeg f seg)).rank := by
  cases seg with
  | scanMalformed => rcases f with ⟨p, l⟩; cases p <;> cases l <;> decide
  | scanStart => rcases f with ⟨p, l⟩; cases p <;> cases l <;> decide
  | cacheHit => rcases f with ⟨p, l⟩; cases p <;> cases l <;> decide
  | enqueueMiss => exact le_refl _
  | taskFinish o =>
      rw [show applySeg f (CardSeg.taskFinish o) = ⟨true, false⟩ from
        executeActions_flags o f]
      rcases f with ⟨p, l⟩; cases p <;> cases l <;> decide

theorem observedStates_head (f : CardFlags) (segs : List CardSeg) :
    (observedStates f segs).head? = some (cardState f) := by
  cases segs <;> rfl

theorem observedStates_chain (segs : List CardSeg) :
    ∀ f : CardFlags,
      List.Chain' (fun a b : CState => a.rank ≤ b.rank)
        (observedStates f segs) := by
  induction segs with
  | nil => intro f; simp [observedStates]
  | cons seg rest ih =>
      intro f
      have h1 := ih (applySeg f seg)
      have h2 := observedStates_head (applySeg f seg) rest
      cases hr : observedStates (applySeg f seg) rest with
      | nil => rw [observedStates, hr]; simp
      | cons c tl =>
          rw [hr] at h1 h2
          have hc : c = cardState (applySeg f seg) := by
            simpa using h2
          rw [observedStates, hr]
          exact List.Chain'.cons
            (by rw [hc]; exact cardState_rank_le_applySeg f seg) h1

/-! ### Card lifecycle claim theorems -/

/-- C6: along any interleaving of the atomic segments touching a card,
the states observed at segment boundaries form a monotone chain through
Unprocessed, Loading, Processed (so the observed sequence is a prefix
of that progression); from a state with the processed attribute set
every subsequent observed state is still Processed (Processed is
terminal, never followed by Loading); and a card with unrecognizable
markup is marked processed directly, the processCard decision for it
enqueueing nothing. -/
theorem card_state_sequence :
    (∀ (segs : List CardSeg) (f : CardFlags),
      List.Chain' (fun a b : CState => a.rank ≤ b.rank)
        (observedStates f segs)) ∧
    (∀ (seg : CardSeg) (f : CardFlags),
      cardState (applySeg { f with processed := true } seg)
        = CState.processed) ∧
    applySeg ⟨false, false⟩ CardSeg.scanMalformed = ⟨true, false⟩ ∧
    (∀ (hit : Bool) (c tid : Nat),
      processCardDecision false hit c tid
        = ProcessOutcome.skippedMalformed) := by
  refine ⟨fun segs f => observedStates_chain segs f, ?_, by decide, ?_⟩
  · intro seg f
    cases seg with
    | taskFinish o =>
        rw [show applySeg { f with processed := true }
            (CardSeg.taskFinish o) = ⟨true, false⟩ from
          executeActions_flags o _]
        rfl
    | scanMalformed => rfl
    | scanStart => rfl
    | cacheHit => rfl
    | enqueueMiss => rfl
  · intro hit c tid
    rfl

/-! ### Reachability of the counterexample states -/

theorem reachable_enqueue (r : QueuedRequest) {s : SchedulerState}
    (h : SchedReachable s) : SchedReachable (enqueue r s) :=
  Relation.ReflTransGen.tail h (SchedStep.enqueueEv r s)

theorem reachable_intersectOn (c : Nat) {s : SchedulerState}
    (h : SchedReachable s) : SchedReachable (intersectOn c s) :=
  Relation.ReflTransGen.tail h (SchedStep.intersectOnEv c s)

theorem reachable_intersectOff (c : Nat) {s : SchedulerState}
    (h : SchedReachable s) : SchedReachable (intersectOff c s) :=
  Relation.ReflTransGen.tail h (SchedStep.intersectOffEv c s)

theorem reachable_foldl_enqueue (l : List Nat) :
    ∀ {s : SchedulerState}, SchedReachable s →
      SchedReachable
        (l.foldl (fun s i => enqueue ⟨100 + i, 100 + i⟩ s) s) := by
  induction l with
  | nil => intro s h; exact h
  | cons i rest ih => intro s h; exact ih (reachable_enqueue _ h)

/-! ### Counterexample theorems -/

/-- C3 fails on the code: findUnprocessedCards consults only the
processed attribute, so a mutation re-scan firing while card 7 is still
in the Loading state (first task in flight, cache still missing)
rediscovers it, processCard enqueues a second task, and the scheduler
reaches a state with two in-flight tasks for the one card. -/
theorem single_inflight_per_card_violated :
    findUnprocessedCards [⟨7, ⟨false, true⟩, true⟩] = [7] ∧
    processCardDecision true false 7 2
      = ProcessOutcome.enqueuedTask ⟨7, 2⟩ ∧
    SchedReachable dupScenarioState ∧
    inFlightFor 7 dupScenarioState = 2 := by
  refine ⟨by decide, by decide, ?_, by decide⟩
  exact reachable_enqueue ⟨7, 2⟩
    (reachable_enqueue ⟨7, 1⟩ Relation.ReflTransGen.refl)

/-- C8 fails on the code through the same re-scan flaw: card 7 is
enqueued into the visible queue while visible behind a saturated
pipeline, scrolls off-screen (removal from the visible set does not
demote the queued item), and the re-scan then enqueues a second task
into the background queue, leaving the card present in both queues at
once. -/
theorem queue_exclusivity_violated :
    findUnprocessedCards [⟨7, ⟨false, true⟩, true⟩] = [7] ∧
    SchedReachable bothQueuesState ∧
    (bothQueuesState.visibleQueue.filter (fun r => r.card = 7)).length
      = 1 ∧
    (bothQueuesState.offscreenQueue.filter (fun r => r.card = 7)).length
      = 1 := by
  refine ⟨by decide, ?_, by decide, by decide⟩
  exact reachable_enqueue ⟨7, 2⟩
    (reachable_intersectOff 7
      (reachable_enqueue ⟨7, 1⟩
        (reachable_intersectOn 7
          (reachable_foldl_enqueue (List.range 10)
            Relation.ReflTransGen.refl))))

end NextRead
